import Mathlib

/-!
Verification of the Roseboard core logic: the deterministic daily-message
generator (server route module) and the two drift-resistant timer state
machines (Pomodoro and full-screen countdown) of the home view, together
with the `addFocusTime` statistics accumulator.

The definitions below are a shallow embedding of the TypeScript source:
JavaScript 32-bit integer coercion is modelled on `Int`, wall-clock
timestamps are integers in milliseconds, and the fractional seconds of the
full-screen timer are modelled on `Rat`.
-/

/-! ## JavaScript 32-bit integer semantics -/

/-- JavaScript `ToInt32`: reduce an integer modulo `2^32` into the signed
range `[-2^31, 2^31)`.  This is what `x & x` (and the implicit coercion of
the `<<` operand) performs on an integral JS number. -/
def toInt32 (n : Int) : Int :=
  (n + 2147483648) % 4294967296 - 2147483648

/-- The specification's `truncate32`: signed 32-bit two's-complement
wraparound. -/
def truncate32 (n : Int) : Int :=
  (n + 2147483648) % 4294967296 - 2147483648

/-! ## Daily message generator (`generateDailyMessage` in the routes module) -/

def templates : List String :=
  ["You {action} today. {encouragement}",
   "{encouragement} You've {verb} through another day.",
   "Rest now. {future_action}",
   "{accomplishment}, and that's enough.",
   "Your {quality} matters. Take care of yourself."]

def actions : List String :=
  ["did enough", "showed up", "made it through", "gave your best",
   "tried your hardest"]

def encouragements : List String :=
  ["Well done", "Good work", "You've got this", "Keep going", "Be proud"]

def verbs : List String :=
  ["made it", "pushed through", "powered through", "persevered", "carried on"]

def accomplishments : List String :=
  ["You showed up today", "You tried your best", "You kept going",
   "You made progress", "You did your part"]

def qualities : List String :=
  ["effort", "courage", "persistence", "strength", "resilience"]

def futureActions : List String :=
  ["Tomorrow is a fresh start.", "Tomorrow awaits your greatness.",
   "Tomorrow will be better.", "Tomorrow needs you.",
   "Tomorrow is a new opportunity."]

/-- One loop iteration of the seed fold:
`seed = ((seed << 5) - seed) + charCode; seed = seed & seed`.
`seed << 5` coerces its operand to int32, multiplies by 32 and wraps to
int32; the subtraction and addition are exact (double-precision on values
of magnitude below `2^53`); `seed & seed` wraps the result to int32. -/
def jsSeedStep (seed c : Int) : Int :=
  toInt32 (toInt32 (toInt32 seed * 32) - seed + c)

/-- The seed fold over the character codes of the input, starting at 0. -/
def seedOf (codes : List Int) : Int :=
  codes.foldl jsSeedStep 0

/-- Seed of a string: fold `jsSeedStep` over its character codes. -/
def seedOfString (s : String) : Int :=
  seedOf (s.data.map fun ch => (ch.toNat : Int))

/-- JS `Math.abs(seed)` (doubles do not overflow here, so this is the exact
mathematical absolute value). -/
def absOf (s : String) : Nat :=
  (seedOfString s).natAbs

def templateIdxOf (s : String) : Nat := absOf s % templates.length

def actionIdxOf (s : String) : Nat := (absOf s + 1) % actions.length

def encouragementIdxOf (s : String) : Nat := (absOf s + 2) % encouragements.length

def verbIdxOf (s : String) : Nat := (absOf s + 3) % verbs.length

def accomplishmentIdxOf (s : String) : Nat := (absOf s + 4) % accomplishments.length

def qualityIdxOf (s : String) : Nat := (absOf s + 5) % qualities.length

def futureIdxOf (s : String) : Nat := (absOf s + 6) % futureActions.length

/-- First-occurrence string replacement on character lists, as JavaScript's
`String.prototype.replace` with a plain-string pattern: replace the leftmost
occurrence of `pat`, or return the input unchanged when `pat` does not
occur. -/
def replaceFirstList (pat repl : List Char) : List Char → List Char
  | [] => if pat.isEmpty then repl else []
  | c :: rest =>
      if pat.isPrefixOf (c :: rest) then repl ++ (c :: rest).drop pat.length
      else c :: replaceFirstList pat repl rest

/-- JS `s.replace(pat, repl)` for plain-string patterns. -/
def jsReplace (s pat repl : String) : String :=
  String.mk (replaceFirstList pat.data repl.data s.data)

/-- The generator: pick the template by `abs % 5`, the six slot entries by
`(abs + k) % 5`, and substitute them into the template in source order. -/
def generateDailyMessage (dateString : String) : String :=
  let message := templates.getD (templateIdxOf dateString) ""
  jsReplace (jsReplace (jsReplace (jsReplace (jsReplace (jsReplace message
    "{action}" (actions.getD (actionIdxOf dateString) ""))
    "{encouragement}" (encouragements.getD (encouragementIdxOf dateString) ""))
    "{verb}" (verbs.getD (verbIdxOf dateString) ""))
    "{accomplishment}" (accomplishments.getD (accomplishmentIdxOf dateString) ""))
    "{quality}" (qualities.getD (qualityIdxOf dateString) ""))
    "{future_action}" (futureActions.getD (futureIdxOf dateString) "")

/-! ## Pomodoro timer state machine (home view)

The home view keeps the Pomodoro state in React cells `pomoMode`,
`pomoRunning`, `pomoRemaining` (seconds) and refs `pomoSessionStartRef`
(ms timestamp), `pomoSessionDurationRef` (seconds).  We additionally record
the list of minute values reported to `addFocusTime`, most recent last. -/

inductive PomoMode
  | focus
  | breakMode
deriving DecidableEq

def PomoMode.flip : PomoMode → PomoMode
  | .focus => .breakMode
  | .breakMode => .focus

/-- Configured full duration of a mode in seconds:
`(pomoMode === "focus" ? 25 : 5) * 60`. -/
def pomoDuration : PomoMode → Int
  | .focus => 25 * 60
  | .breakMode => 5 * 60

structure PomoState where
  mode : PomoMode
  running : Bool
  remaining : Int
  sessionStart : Option Int
  sessionDuration : Int
  reports : List Int
deriving DecidableEq

/-- Initial Pomodoro state: focus mode, not running, 25 minutes remaining. -/
def initialPomoState : PomoState :=
  { mode := .focus, running := false, remaining := 25 * 60,
    sessionStart := none, sessionDuration := 0, reports := [] }

/-- The body of the `[pomoRunning, calculatePomoRemaining]` effect: while
running, a session with no start timestamp is armed (`sessionStart := now`,
`sessionDuration := remaining`); while not running, `sessionStart` is
cleared (and the interval is dropped). -/
def pomoRunningEffect (now : Int) (s : PomoState) : PomoState :=
  if s.running then
    match s.sessionStart with
    | none => { s with sessionStart := some now, sessionDuration := s.remaining }
    | some _ => s
  else
    { s with sessionStart := none }

/-- Operation `setPomoRunning b` followed by the re-run of the running effect; a
`setState` to the current value causes no re-render, hence no effect run. -/
def pomoSetRunning (b : Bool) (now : Int) (s : PomoState) : PomoState :=
  if s.running = b then s else pomoRunningEffect now { s with running := b }

/-- One interval firing: `calculatePomoRemaining` plus the state updates it
performs.  When `!pomoRunning || !pomoSessionStartRef.current`, the
current value of `pomoRemaining` is returned and nothing changes.
Otherwise `elapsed = Math.floor((now - start) / 1000)` and
`remainingTime = Math.max(0, duration - elapsed)`.  On completion
(`remainingTime === 0`) the mode flips, 25 is reported when the completing
mode was focus, `sessionStart` is cleared, and both the duration ref and
(via the mode-change effect) `pomoRemaining` become the opposite mode's
configured full duration. -/
def pomoTick (now : Int) (s : PomoState) : PomoState :=
  match s.sessionStart with
  | none => s
  | some t0 =>
      if s.running then
        let elapsed := (now - t0) / 1000
        let remainingTime := max 0 (s.sessionDuration - elapsed)
        if remainingTime = 0 then
          { mode := s.mode.flip
            running := s.running
            remaining := pomoDuration s.mode.flip
            sessionStart := none
            sessionDuration := pomoDuration s.mode.flip
            reports := if s.mode = .focus then s.reports ++ [25] else s.reports }
        else
          { s with remaining := remainingTime }
      else s

/-- Operation `resetPomodoro(nextMode)`. -/
def pomoReset (m : PomoMode) (s : PomoState) : PomoState :=
  { s with running := false, mode := m, remaining := pomoDuration m,
           sessionStart := none }

inductive PomoEvent
  | setRun (b : Bool) (now : Int)
  | arm (now : Int)
  | tick (now : Int)
  | reset (m : PomoMode)

def pomoStep : PomoEvent → PomoState → PomoState
  | .setRun b now, s => pomoSetRunning b now s
  | .arm now, s => pomoRunningEffect now s
  | .tick now, s => pomoTick now s
  | .reset m, s => pomoReset m s

def pomoRun (evs : List PomoEvent) (s : PomoState) : PomoState :=
  evs.foldl (fun st e => pomoStep e st) s

/-! ## Full-screen countdown timer (`useFullscreenTimer`) -/

/-- JS `Math.round(ms / 60000)` for a non-negative millisecond count (ties
round up). -/
def jsRoundMinutes (ms : Int) : Int :=
  (ms + 30000) / 60000

/-- State of `useFullscreenTimer`: `seconds` may be fractional, `lastTick`
and `sessionStartTime` are ms timestamps; `reports` records the minute
values handed to `onFocusTime`, most recent last. -/
structure FsState where
  seconds : Rat
  running : Bool
  lastTick : Option Int
  sessionStartTime : Option Int
  reports : List Int
deriving DecidableEq

/-- Initial state: `useFullscreenTimer(10 * 60, onFocusTime)`. -/
def initialFsState : FsState :=
  { seconds := 10 * 60, running := false, lastTick := none,
    sessionStartTime := none, reports := [] }

/-- The two `[running]` effects: on becoming running, both timestamps are
set to `now`; on stopping, the elapsed wall-clock session is rounded to
whole minutes and reported when positive, the session timestamp is cleared,
and `lastTick` is cleared. -/
def fsRunningEffect (now : Int) (s : FsState) : FsState :=
  if s.running then
    { s with sessionStartTime := some now, lastTick := some now }
  else
    let s1 :=
      match s.sessionStartTime with
      | some t0 =>
          let m := jsRoundMinutes (now - t0)
          { s with reports := if 0 < m then s.reports ++ [m] else s.reports,
                   sessionStartTime := none }
      | none => s
    { s1 with lastTick := none }

/-- Operation `setRunning b` followed by the effects; a `setState` to the current
value causes no re-render, hence no effect run. -/
def fsSetRunning (b : Bool) (now : Int) (s : FsState) : FsState :=
  if s.running = b then s else fsRunningEffect now { s with running := b }

/-- One interval firing (the interval exists only while running):
`delta = (now - last) / 1000` seconds since the previous tick; if
`delta <= 0` nothing but `lastTick` changes; otherwise `seconds` drops by
`delta`, clamped at 0. -/
def fsTick (now : Int) (s : FsState) : FsState :=
  if s.running then
    let last := s.lastTick.getD now
    let delta : Rat := ((now - last : Int) : Rat) / 1000
    let s1 := { s with lastTick := some now }
    if delta ≤ 0 then s1
    else
      let next := s1.seconds - delta
      { s1 with seconds := if next ≤ 0 then 0 else next }
  else s

/-- The `[seconds]` effect: `if (seconds === 0) setRunning(false)`. -/
def fsZeroStop (now : Int) (s : FsState) : FsState :=
  if s.seconds = 0 then fsSetRunning false now s else s

/-- Minus button: `setSeconds(s => Math.max(0, s - 60))`. -/
def fsAdjustMinus (s : FsState) : FsState :=
  { s with seconds := max 0 (s.seconds - 60) }

/-- Plus button: `setSeconds(s => s + 60)`. -/
def fsAdjustPlus (s : FsState) : FsState :=
  { s with seconds := s.seconds + 60 }

inductive FsEvent
  | setRun (b : Bool) (now : Int)
  | tick (now : Int)
  | zeroStop (now : Int)
  | adjustMinus
  | adjustPlus

def fsStep : FsEvent → FsState → FsState
  | .setRun b now, s => fsSetRunning b now s
  | .tick now, s => fsTick now s
  | .zeroStop now, s => fsZeroStop now s
  | .adjustMinus, s => fsAdjustMinus s
  | .adjustPlus, s => fsAdjustPlus s

def fsRun (evs : List FsEvent) (s : FsState) : FsState :=
  evs.foldl (fun st e => fsStep e st) s

/-! ## Pause/resume segment traces

A segment `(a, b)` is: resume at time `a`, one (or more, here one) tick at
time `b`, then pause at time `b`. -/

def pomoSegment (a b : Int) (s : PomoState) : PomoState :=
  pomoSetRunning false b (pomoTick b (pomoSetRunning true a s))

def pomoRunSegments : List (Int × Int) → PomoState → PomoState
  | [], s => s
  | (a, b) :: rest, s => pomoRunSegments rest (pomoSegment a b s)

def fsSegment (a b : Int) (s : FsState) : FsState :=
  fsSetRunning false b (fsTick b (fsSetRunning true a s))

def fsRunSegments : List (Int × Int) → FsState → FsState
  | [], s => s
  | (a, b) :: rest, s => fsRunSegments rest (fsSegment a b s)

/-- Total whole seconds consumed by a list of segments, with the tick's
per-segment flooring. -/
def sumElapsedSecs : List (Int × Int) → Int
  | [] => 0
  | (a, b) :: rest => (b - a) / 1000 + sumElapsedSecs rest

/-- Total (exact, rational) seconds consumed by a list of segments for the
full-screen timer. -/
def fsSumElapsed : List (Int × Int) → Rat
  | [] => 0
  | (a, b) :: rest => ((b - a : Int) : Rat) / 1000 + fsSumElapsed rest

/-- Well-formedness of a segment list against a starting remaining value:
each segment runs forward in time and consumes strictly less than what
remains when it starts (so no completion fires mid-trace). -/
def pomoSegsOk (rem : Int) : List (Int × Int) → Bool
  | [] => true
  | (a, b) :: rest =>
      let e := (b - a) / 1000
      decide (a ≤ b) && decide (e < rem) && pomoSegsOk (rem - e) rest

def fsSegsOk (sec : Rat) : List (Int × Int) → Bool
  | [] => true
  | (a, b) :: rest =>
      let d : Rat := ((b - a : Int) : Rat) / 1000
      decide (a ≤ b) && decide (d < sec) && fsSegsOk (sec - d) rest

/-! ## Focus-time statistics (`addFocusTime`) -/

/-- Function `addFocusTime(minutes)`: non-positive amounts return immediately with
the state unchanged; otherwise the cumulative focus time grows by exactly
`minutes`. -/
def addFocusTime (focusTime minutes : Int) : Int :=
  if minutes ≤ 0 then focusTime else focusTime + minutes

/-! ### Helper lemmas for the seed arithmetic -/

lemma toInt32_eq_of_emod_eq {a b : Int}
    (h : a % 4294967296 = b % 4294967296) : toInt32 a = toInt32 b := by
  unfold toInt32
  omega

lemma jsSeedStep_eq (s c : Int) : jsSeedStep s c = truncate32 (s * 31 + c) := by
  unfold jsSeedStep toInt32 truncate32
  omega

lemma seed_foldl_eq (cs : List Int) (a : Int) :
    cs.foldl jsSeedStep a = cs.foldl (fun s c => truncate32 (s * 31 + c)) a := by
  induction cs generalizing a with
  | nil => rfl
  | cons c cs ih => simp only [List.foldl_cons, jsSeedStep_eq, ih]

/-- Claim C1: the seed is computed by the recurrence with starting value 0
and step `truncate32 (seed * 31 + c)` (signed 32-bit wraparound at every
step), and the code's step `((seed << 5) - seed) + charCode; seed & seed`
equals `truncate32 (seed * 31 + c)` for every 32-bit seed and character
code. -/
theorem seed_recurrence :
    (∀ cs : List Int, seedOf cs = cs.foldl (fun s c => truncate32 (s * 31 + c)) 0)
    ∧ ∀ s c : Int, -2147483648 ≤ s → s < 2147483648 →
        jsSeedStep s c = truncate32 (s * 31 + c) := by
  constructor
  · intro cs
    exact seed_foldl_eq cs 0
  · intro s c _ _
    exact jsSeedStep_eq s c

/-- Witness for C1 at a concrete 32-bit seed and character code. -/
theorem seed_recurrence_witness :
    jsSeedStep 7 65 = truncate32 (7 * 31 + 65) :=
  seed_recurrence.2 7 65 (by decide) (by decide)

/-! ### Index selection and message assembly -/

/-- Claim C2: the template index is `abs % 5` and the six slot indices are
`(abs + k) % 5` with offsets action=+1, encouragement=+2, verb=+3,
accomplishment=+4, quality=+5, futureAction=+6; for an input whose seed is
0 the indices are 0, 1, 2, 3, 4, 0, 1 and the returned message is the
chosen template with exactly those pool entries substituted. -/
theorem index_selection :
    (∀ s : String,
      templateIdxOf s = absOf s % 5 ∧
      actionIdxOf s = (absOf s + 1) % 5 ∧
      encouragementIdxOf s = (absOf s + 2) % 5 ∧
      verbIdxOf s = (absOf s + 3) % 5 ∧
      accomplishmentIdxOf s = (absOf s + 4) % 5 ∧
      qualityIdxOf s = (absOf s + 5) % 5 ∧
      futureIdxOf s = (absOf s + 6) % 5)
    ∧ ∀ s : String, seedOfString s = 0 →
        templateIdxOf s = 0 ∧ actionIdxOf s = 1 ∧ encouragementIdxOf s = 2 ∧
        verbIdxOf s = 3 ∧ accomplishmentIdxOf s = 4 ∧ qualityIdxOf s = 0 ∧
        futureIdxOf s = 1 ∧
        generateDailyMessage s = "You showed up today. You've got this" := by
  constructor
  · intro s
    exact ⟨rfl, rfl, rfl, rfl, rfl, rfl, rfl⟩
  · intro s h
    have habs : absOf s = 0 := by
      unfold absOf
      rw [h]
      rfl
    refine ⟨?_, ?_, ?_, ?_, ?_, ?_, ?_, ?_⟩
    · simp only [templateIdxOf, habs]
      rfl
    · simp only [actionIdxOf, habs]
      rfl
    · simp only [encouragementIdxOf, habs]
      rfl
    · simp only [verbIdxOf, habs]
      rfl
    · simp only [accomplishmentIdxOf, habs]
      rfl
    · simp only [qualityIdxOf, habs]
      rfl
    · simp only [futureIdxOf, habs]
      rfl
    · simp only [generateDailyMessage, templateIdxOf, actionIdxOf,
        encouragementIdxOf, verbIdxOf, accomplishmentIdxOf, qualityIdxOf,
        futureIdxOf, habs]
      rfl

/-- Witness for C2: the empty string has seed 0 and gets the predicted
message. -/
theorem index_selection_witness :
    generateDailyMessage "" = "You showed up today. You've got this" :=
  (index_selection.2 "" (by decide)).2.2.2.2.2.2.2

/-- Claim C3: the generator is total: every pool index it uses lies in
`0..4` for every input string, and the empty string yields seed 0 and the
deterministic seed-0 message. -/
theorem generator_total :
    (∀ s : String,
      templateIdxOf s < 5 ∧ actionIdxOf s < 5 ∧ encouragementIdxOf s < 5 ∧
      verbIdxOf s < 5 ∧ accomplishmentIdxOf s < 5 ∧ qualityIdxOf s < 5 ∧
      futureIdxOf s < 5)
    ∧ seedOfString "" = 0
    ∧ generateDailyMessage "" = "You showed up today. You've got this" := by
  refine ⟨fun s => ⟨?_, ?_, ?_, ?_, ?_, ?_, ?_⟩, by decide, by decide⟩
  all_goals exact Nat.mod_lt _ (by decide)

/-- Claim C4: the generator is deterministic and pure: equal inputs give
equal seeds and equal messages, and the message depends on the input only
through the seed. -/
theorem generator_deterministic :
    (∀ s t : String, s = t →
      seedOfString s = seedOfString t ∧
      generateDailyMessage s = generateDailyMessage t)
    ∧ ∀ s t : String, seedOfString s = seedOfString t →
        generateDailyMessage s = generateDailyMessage t := by
  constructor
  · intro s t h
    subst h
    exact ⟨rfl, rfl⟩
  · intro s t h
    have habs : absOf s = absOf t := by
      unfold absOf
      rw [h]
    simp only [generateDailyMessage, templateIdxOf, actionIdxOf,
      encouragementIdxOf, verbIdxOf, accomplishmentIdxOf, qualityIdxOf,
      futureIdxOf, habs]

/-- Witness for C4: the distinct strings "ab" and "bC" hash to the same
seed, hence the same message. -/
theorem generator_deterministic_witness :
    generateDailyMessage "ab" = generateDailyMessage "bC" :=
  generator_deterministic.2 "ab" "bC" (by decide)

/-! ### Pomodoro completion (mode flip and nominal-minute reporting) -/

lemma pomoTick_start_none {s : PomoState} (h : s.sessionStart = none)
    (now : Int) : pomoTick now s = s := by
  unfold pomoTick
  rw [h]

/-- Claim C5: when a running focus interval's remaining time reaches zero
on a tick, the mode flips to break, exactly one report of the configured
25 focus minutes fires (never the measured elapsed time), a break
completion reports nothing, and the new session is armed with the opposite
mode's configured full duration with `sessionStart` cleared; a further
tick on the completed state changes nothing (no duplicate report). -/
theorem pomo_completion (s : PomoState) (now t0 : Int)
    (hrun : s.running = true) (hstart : s.sessionStart = some t0)
    (hdone : s.sessionDuration ≤ (now - t0) / 1000) :
    (s.mode = .focus →
      pomoTick now s =
        { mode := .breakMode, running := true, remaining := 300,
          sessionStart := none, sessionDuration := 300,
          reports := s.reports ++ [25] })
    ∧ (s.mode = .breakMode →
      pomoTick now s =
        { mode := .focus, running := true, remaining := 1500,
          sessionStart := none, sessionDuration := 1500,
          reports := s.reports })
    ∧ ∀ now2 : Int, pomoTick now2 (pomoTick now s) = pomoTick now s := by
  have h0 : max 0 (s.sessionDuration - (now - t0) / 1000) = 0 := by omega
  have hmain : ∀ m, s.mode = m →
      pomoTick now s =
        { mode := m.flip, running := true, remaining := pomoDuration m.flip,
          sessionStart := none, sessionDuration := pomoDuration m.flip,
          reports := if m = .focus then s.reports ++ [25] else s.reports } := by
    intro m hm
    unfold pomoTick
    rw [hstart, hrun, hm]
    simp only [if_true, h0, if_pos rfl]
  refine ⟨?_, ?_, ?_⟩
  · intro hm
    rw [hmain .focus hm]
    rfl
  · intro hm
    rw [hmain .breakMode hm]
    rfl
  · intro now2
    apply pomoTick_start_none
    rw [hmain s.mode rfl]

/-- Witness for C5: a concrete focus session of 1500 configured seconds
started at time 0 completes on a tick at 1,500,000 ms. -/
theorem pomo_completion_witness :
    pomoTick 1500000 ⟨.focus, true, 3, some 0, 1500, []⟩ =
      ⟨.breakMode, true, 300, none, 300, [25]⟩ :=
  (pomo_completion ⟨.focus, true, 3, some 0, 1500, []⟩ 1500000 0 rfl rfl
    (by decide)).1 rfl

/-! ### Pause preserves progress (both timers) -/

lemma pomoSegment_spec (s : PomoState) (a b : Int) (hrun : s.running = false)
    (hstart : s.sessionStart = none) (_hab : a ≤ b)
    (hlt : (b - a) / 1000 < s.remaining) :
    pomoSegment a b s =
      { s with running := false, remaining := s.remaining - (b - a) / 1000,
               sessionStart := none, sessionDuration := s.remaining } := by
  obtain ⟨m, r, rem, ss, dur, reps⟩ := s
  replace hrun : r = false := hrun
  replace hstart : ss = none := hstart
  subst hrun hstart
  have hmax : max 0 (rem - (b - a) / 1000) = rem - (b - a) / 1000 := by
    simp only [PomoState.remaining] at hlt
    omega
  have hne : ¬ (rem - (b - a) / 1000 = 0) := by
    simp only [PomoState.remaining] at hlt
    omega
  simp [pomoSegment, pomoSetRunning, pomoRunningEffect, pomoTick, hmax, hne]

lemma pomoRunSegments_spec (segs : List (Int × Int)) :
    ∀ s : PomoState, s.running = false → s.sessionStart = none →
      pomoSegsOk s.remaining segs = true →
      (pomoRunSegments segs s).remaining = s.remaining - sumElapsedSecs segs
      ∧ (pomoRunSegments segs s).mode = s.mode
      ∧ (pomoRunSegments segs s).reports = s.reports
      ∧ (pomoRunSegments segs s).running = false
      ∧ (pomoRunSegments segs s).sessionStart = none := by
  induction segs with
  | nil =>
      intro s h1 h2 _
      simp [pomoRunSegments, sumElapsedSecs, h1, h2]
  | cons p rest ih =>
      obtain ⟨a, b⟩ := p
      intro s h1 h2 hok
      unfold pomoSegsOk at hok
      simp only [Bool.and_eq_true, decide_eq_true_eq] at hok
      obtain ⟨⟨hab, hlt⟩, hrest⟩ := hok
      have hseg := pomoSegment_spec s a b h1 h2 hab hlt
      have hstep : pomoRunSegments ((a, b) :: rest) s
          = pomoRunSegments rest (pomoSegment a b s) := rfl
      rw [hstep, hseg]
      obtain ⟨r1, r2, r3, r4, r5⟩ :=
        ih { s with running := false,
                    remaining := s.remaining - (b - a) / 1000,
                    sessionStart := none, sessionDuration := s.remaining }
          rfl rfl hrest
      refine ⟨?_, r2, r3, r4, r5⟩
      rw [r1]
      simp [sumElapsedSecs]
      omega

lemma fsSegment_spec (s : FsState) (a b : Int) (hrun : s.running = false)
    (hab : a ≤ b) (hlt : ((b - a : Int) : Rat) / 1000 < s.seconds) :
    (fsSegment a b s).seconds = s.seconds - ((b - a : Int) : Rat) / 1000
    ∧ (fsSegment a b s).running = false := by
  obtain ⟨sec, r, lt, st, reps⟩ := s
  replace hrun : r = false := hrun
  subst hrun
  simp only [FsState.seconds] at hlt
  have hd : ((b - a : Int) : Rat) / 1000 = ((b : Rat) - (a : Rat)) / 1000 := by
    norm_cast
  rw [hd] at hlt
  have hd0 : (0 : Rat) ≤ ((b : Rat) - (a : Rat)) / 1000 := by
    apply div_nonneg
    · simp only [sub_nonneg]
      exact_mod_cast hab
    · norm_num
  by_cases hz : ((b : Rat) - (a : Rat)) / 1000 ≤ 0
  · have hdz : ((b : Rat) - (a : Rat)) / 1000 = 0 := le_antisymm hz hd0
    simp [fsSegment, fsSetRunning, fsRunningEffect, fsTick, hz, hd, hdz]
  · have hnext : ¬ (sec ≤ ((b : Rat) - (a : Rat)) / 1000) := not_le.mpr hlt
    have hnext2 : ¬ (sec - ((b : Rat) - (a : Rat)) / 1000 ≤ 0) := by
      intro hcon
      exact hnext (by linarith)
    simp [fsSegment, fsSetRunning, fsRunningEffect, fsTick, hz, hd, hnext, hnext2]

lemma fsRunSegments_spec (segs : List (Int × Int)) :
    ∀ s : FsState, s.running = false → fsSegsOk s.seconds segs = true →
      (fsRunSegments segs s).seconds = s.seconds - fsSumElapsed segs
      ∧ (fsRunSegments segs s).running = false := by
  induction segs with
  | nil =>
      intro s h1 _
      simp [fsRunSegments, fsSumElapsed, h1]
  | cons p rest ih =>
      obtain ⟨a, b⟩ := p
      intro s h1 hok
      unfold fsSegsOk at hok
      simp only [Bool.and_eq_true, decide_eq_true_eq] at hok
      obtain ⟨⟨hab, hlt⟩, hrest⟩ := hok
      have hseg := fsSegment_spec s a b h1 hab hlt
      have hstep : fsRunSegments ((a, b) :: rest) s
          = fsRunSegments rest (fsSegment a b s) := rfl
      rw [hstep]
      have hrest' : fsSegsOk (fsSegment a b s).seconds rest = true := by
        rw [hseg.1]
        exact hrest
      obtain ⟨r1, r2⟩ := ih (fsSegment a b s) hseg.2 hrest'
      refine ⟨?_, r2⟩
      rw [r1, hseg.1]
      simp only [fsSumElapsed]
      ring

/-- Claim C6: pausing either timer freezes the remaining duration and
resuming continues from exactly that value: over any run/pause/resume
trace of forward segments that never exhausts the timer, the remaining
duration drops by exactly the accumulated running time (floored to whole
seconds for the Pomodoro, exact for the full-screen timer), so the total
running time needed to reach zero equals the configured duration,
modulo tick-granularity rounding; mode and Pomodoro reports are
untouched. -/
theorem pause_preserves_progress :
    (∀ (s : PomoState) (segs : List (Int × Int)),
      s.running = false → s.sessionStart = none →
      pomoSegsOk s.remaining segs = true →
      (pomoRunSegments segs s).remaining = s.remaining - sumElapsedSecs segs
      ∧ (pomoRunSegments segs s).mode = s.mode
      ∧ (pomoRunSegments segs s).reports = s.reports)
    ∧ ∀ (s : FsState) (segs : List (Int × Int)),
      s.running = false → fsSegsOk s.seconds segs = true →
      (fsRunSegments segs s).seconds = s.seconds - fsSumElapsed segs := by
  constructor
  · intro s segs h1 h2 hok
    obtain ⟨r1, r2, r3, _, _⟩ := pomoRunSegments_spec segs s h1 h2 hok
    exact ⟨r1, r2, r3⟩
  · intro s segs h1 hok
    exact (fsRunSegments_spec segs s h1 hok).1

/-- Witness for C6: two run/pause/resume cycles on each timer, 10 s and
5 s of running on the Pomodoro (1500 s configured) and on the full-screen
timer (600 s configured). -/
theorem pause_preserves_progress_witness :
    (pomoRunSegments [(0, 10000), (60000, 65000)] initialPomoState).remaining
      = 1500 - 15
    ∧ (fsRunSegments [(0, 10000), (60000, 65000)] initialFsState).seconds
      = 600 - 15 := by
  constructor
  · exact (pause_preserves_progress.1 initialPomoState
      [(0, 10000), (60000, 65000)] rfl rfl (by decide)).1
  · have h := pause_preserves_progress.2 initialFsState
      [(0, 10000), (60000, 65000)] rfl
      (by norm_num [fsSegsOk, initialFsState])
    rw [h]
    norm_num [fsSumElapsed, initialFsState]

/-! ### Non-negativity of the remaining duration -/

lemma pomoDuration_nonneg (m : PomoMode) : 0 ≤ pomoDuration m := by
  cases m <;> decide

lemma pomoRunningEffect_remaining (now : Int) (s : PomoState) :
    (pomoRunningEffect now s).remaining = s.remaining := by
  unfold pomoRunningEffect
  rcases hss : s.sessionStart with _ | t0 <;> split <;> simp [hss]

lemma pomoSetRunning_remaining (b : Bool) (now : Int) (s : PomoState) :
    (pomoSetRunning b now s).remaining = s.remaining := by
  unfold pomoSetRunning
  split
  · rfl
  · rw [pomoRunningEffect_remaining]

lemma pomoTick_remaining_nonneg (now : Int) (s : PomoState)
    (h : 0 ≤ s.remaining) : 0 ≤ (pomoTick now s).remaining := by
  rcases hss : s.sessionStart with _ | t0
  · simp [pomoTick, hss, h]
  · simp only [pomoTick, hss]
    split
    · split
      · exact pomoDuration_nonneg _
      · exact le_max_left 0 _
    · exact h

lemma pomoStep_nonneg (e : PomoEvent) (s : PomoState) (h : 0 ≤ s.remaining) :
    0 ≤ (pomoStep e s).remaining := by
  cases e with
  | setRun b now =>
      show 0 ≤ (pomoSetRunning b now s).remaining
      rw [pomoSetRunning_remaining]
      exact h
  | arm now =>
      show 0 ≤ (pomoRunningEffect now s).remaining
      rw [pomoRunningEffect_remaining]
      exact h
  | tick now => exact pomoTick_remaining_nonneg now s h
  | reset m => exact pomoDuration_nonneg m

lemma fsRunningEffect_seconds (now : Int) (s : FsState) :
    (fsRunningEffect now s).seconds = s.seconds := by
  unfold fsRunningEffect
  rcases hss : s.sessionStartTime with _ | t0 <;> split <;> simp [hss]

lemma fsSetRunning_seconds (b : Bool) (now : Int) (s : FsState) :
    (fsSetRunning b now s).seconds = s.seconds := by
  unfold fsSetRunning
  split
  · rfl
  · rw [fsRunningEffect_seconds]

lemma fsTick_seconds_nonneg (now : Int) (s : FsState) (h : 0 ≤ s.seconds) :
    0 ≤ (fsTick now s).seconds := by
  unfold fsTick
  split
  · dsimp only
    split
    · exact h
    · dsimp only
      split
      · exact le_refl 0
      · rename_i hpos
        exact le_of_lt (lt_of_not_le hpos)
  · exact h

lemma fsStep_nonneg (e : FsEvent) (s : FsState) (h : 0 ≤ s.seconds) :
    0 ≤ (fsStep e s).seconds := by
  cases e with
  | setRun b now =>
      show 0 ≤ (fsSetRunning b now s).seconds
      rw [fsSetRunning_seconds]
      exact h
  | tick now => exact fsTick_seconds_nonneg now s h
  | zeroStop now =>
      show 0 ≤ (fsZeroStop now s).seconds
      unfold fsZeroStop
      split
      · rw [fsSetRunning_seconds]
        exact h
      · exact h
  | adjustMinus => exact le_max_left 0 _
  | adjustPlus =>
      show 0 ≤ s.seconds + 60
      linarith

lemma pomoRun_nonneg (evs : List PomoEvent) :
    ∀ s : PomoState, 0 ≤ s.remaining → 0 ≤ (pomoRun evs s).remaining := by
  induction evs with
  | nil => intro s h; exact h
  | cons e evs ih =>
      intro s h
      exact ih (pomoStep e s) (pomoStep_nonneg e s h)

lemma fsRun_nonneg (evs : List FsEvent) :
    ∀ s : FsState, 0 ≤ s.seconds → 0 ≤ (fsRun evs s).seconds := by
  induction evs with
  | nil => intro s h; exact h
  | cons e evs ih =>
      intro s h
      exact ih (fsStep e s) (fsStep_nonneg e s h)

/-- Claim C7: for every sequence of tick/pause/resume/adjust/reset
operations on either timer variant, the remaining (or elapsed) duration
stays non-negative. -/
theorem remaining_nonneg :
    (∀ (evs : List PomoEvent) (s : PomoState),
      0 ≤ s.remaining → 0 ≤ (pomoRun evs s).remaining)
    ∧ ∀ (evs : List FsEvent) (s : FsState),
      0 ≤ s.seconds → 0 ≤ (fsRun evs s).seconds :=
  ⟨pomoRun_nonneg, fsRun_nonneg⟩

/-- Witness for C7: a concrete trace on each timer starting from the
initial states. -/
theorem remaining_nonneg_witness :
    0 ≤ (pomoRun [.setRun true 0, .tick 5000, .setRun false 5000,
      .tick 99999999] initialPomoState).remaining
    ∧ 0 ≤ (fsRun [.setRun true 0, .tick 2000, .adjustMinus, .adjustPlus,
      .setRun false 3000] initialFsState).seconds :=
  ⟨remaining_nonneg.1 _ initialPomoState (by decide),
   remaining_nonneg.2 _ initialFsState (by norm_num [initialFsState])⟩

/-! ### Full-screen timer: stop at zero and measured-elapsed reporting -/

/-- Claim C8: when the full-screen countdown hits 0 while running, the
timer stops (no mode flip exists for this variant); on every transition
from running to stopped the reported quantity is the measured wall-clock
elapsed time rounded to whole minutes, computed from the timestamp
recorded when running started. -/
theorem fs_zero_stop_reports_elapsed :
    (∀ (s : FsState) (now : Int), s.running = true → s.seconds = 0 →
      (fsZeroStop now s).running = false)
    ∧ (∀ (s : FsState) (now t0 : Int), s.running = true →
      s.sessionStartTime = some t0 →
      (fsSetRunning false now s).running = false
      ∧ (fsSetRunning false now s).sessionStartTime = none
      ∧ (fsSetRunning false now s).reports =
          (if 0 < jsRoundMinutes (now - t0) then
            s.reports ++ [jsRoundMinutes (now - t0)]
          else s.reports))
    ∧ ∀ (s : FsState) (now : Int), s.running = false →
      (fsSetRunning true now s).sessionStartTime = some now
      ∧ (fsSetRunning true now s).lastTick = some now := by
  refine ⟨?_, ?_, ?_⟩
  · intro s now hrun hsec
    unfold fsZeroStop fsSetRunning fsRunningEffect
    rcases hss : s.sessionStartTime with _ | t0 <;> simp [hsec, hrun, hss]
  · intro s now t0 hrun hss
    refine ⟨?_, ?_, ?_⟩ <;> simp [fsSetRunning, fsRunningEffect, hrun, hss]
  · intro s now hrun
    constructor <;> simp [fsSetRunning, fsRunningEffect, hrun]

/-- Witness for C8: a session started at time 0 whose countdown hits 0
and is stopped at 120,000 ms reports 2 minutes of measured elapsed time. -/
theorem fs_zero_stop_reports_elapsed_witness :
    (fsZeroStop 120000 ⟨0, true, some 119000, some 0, []⟩).running = false
    ∧ (fsSetRunning false 120000 ⟨0, true, some 119000, some 0, []⟩).reports
        = [2] := by
  constructor
  · exact fs_zero_stop_reports_elapsed.1 ⟨0, true, some 119000, some 0, []⟩
      120000 rfl rfl
  · have h := (fs_zero_stop_reports_elapsed.2.1
      ⟨0, true, some 119000, some 0, []⟩ 120000 0 rfl rfl).2.2
    rw [h]
    decide

/-! ### Adjust buttons keep the elapsed basis consistent -/

/-- Claim C9: the plus/minus buttons change `seconds` by exactly +60 or
-60 (floored at 0), running or not, and touch nothing else; a tick right
after an adjustment yields the adjusted value minus only the time elapsed
since the previous tick — it never snaps back to the pre-adjustment
basis. -/
theorem adjust_consistent :
    (∀ s : FsState,
      (fsAdjustPlus s).seconds = s.seconds + 60
      ∧ (fsAdjustMinus s).seconds = max 0 (s.seconds - 60)
      ∧ (fsAdjustPlus s).running = s.running
      ∧ (fsAdjustMinus s).running = s.running
      ∧ (fsAdjustPlus s).lastTick = s.lastTick
      ∧ (fsAdjustMinus s).lastTick = s.lastTick)
    ∧ ∀ (s : FsState) (t1 now : Int), s.running = true → s.lastTick = some t1 →
      t1 < now → 0 < s.seconds + 60 - ((now - t1 : Int) : Rat) / 1000 →
      (fsTick now (fsAdjustPlus s)).seconds
        = s.seconds + 60 - ((now - t1 : Int) : Rat) / 1000 := by
  constructor
  · intro s
    exact ⟨rfl, rfl, rfl, rfl, rfl, rfl⟩
  · intro s t1 now hrun hlast hlt hpos
    have hd : ((now - t1 : Int) : Rat) / 1000 = ((now : Rat) - (t1 : Rat)) / 1000 := by
      norm_cast
    rw [hd] at hpos
    have hdpos : (0 : Rat) < ((now : Rat) - (t1 : Rat)) / 1000 := by
      apply div_pos
      · rw [sub_pos]
        exact_mod_cast hlt
      · norm_num
    have hz : ¬ (((now : Rat) - (t1 : Rat)) / 1000 ≤ 0) := not_le.mpr hdpos
    have hnext : ¬ (s.seconds + 60 - ((now : Rat) - (t1 : Rat)) / 1000 ≤ 0) :=
      not_le.mpr hpos
    have hnext2 : ¬ (s.seconds + 60 ≤ ((now : Rat) - (t1 : Rat)) / 1000) := by
      intro hcon
      exact hnext (by linarith)
    simp [fsTick, fsAdjustPlus, hrun, hlast, hd, hz, hnext, hnext2]

/-- Witness for C9: 590 s remaining with the last tick at 10,000 ms;
pressing plus and ticking at 12,000 ms yields 650 minus the 2 further
elapsed seconds. -/
theorem adjust_consistent_witness :
    (fsTick 12000 (fsAdjustPlus ⟨590, true, some 10000, some 0, []⟩)).seconds
      = 590 + 60 - ((12000 - 10000 : Int) : Rat) / 1000 :=
  adjust_consistent.2 ⟨590, true, some 10000, some 0, []⟩ 10000 12000
    rfl rfl (by decide) (by norm_num)

/-! ### Cumulative focus time never decreases -/

/-- Claim C10: `addFocusTime` ignores non-positive amounts, adds positive
amounts exactly, hence the cumulative focus time never decreases; and a
full-screen run whose rounded elapsed time is 0 whole minutes (strictly
under 30 s) reports nothing at all on stop. -/
theorem focus_time_monotone :
    (∀ ft m : Int, m ≤ 0 → addFocusTime ft m = ft)
    ∧ (∀ ft m : Int, 0 < m → addFocusTime ft m = ft + m)
    ∧ (∀ ft m : Int, ft ≤ addFocusTime ft m)
    ∧ ∀ (s : FsState) (now t0 : Int), s.running = true →
      s.sessionStartTime = some t0 → 0 ≤ now - t0 → now - t0 < 30000 →
      (fsSetRunning false now s).reports = s.reports := by
  refine ⟨?_, ?_, ?_, ?_⟩
  · intro ft m h
    simp [addFocusTime, h]
  · intro ft m h
    simp [addFocusTime, not_le.mpr h]
  · intro ft m
    unfold addFocusTime
    split
    · exact le_refl ft
    · rename_i hm
      have h0 : 0 < m := lt_of_not_le hm
      linarith
  · intro s now t0 hrun hss h1 h2
    have h0 : jsRoundMinutes (now - t0) = 0 := by
      unfold jsRoundMinutes
      omega
    simp [fsSetRunning, fsRunningEffect, hrun, hss, h0]

/-- Witness for C10: a zero-minute addition is ignored, a 7-minute
addition adds exactly 7, and a 29,999 ms run reports nothing. -/
theorem focus_time_monotone_witness :
    addFocusTime 100 0 = 100 ∧ addFocusTime 100 7 = 107
    ∧ (fsSetRunning false 29999 ⟨600, true, some 0, some 0, []⟩).reports
        = ([] : List Int) := by
  refine ⟨focus_time_monotone.1 100 0 (by decide), ?_, ?_⟩
  · rw [focus_time_monotone.2.1 100 7 (by decide)]
    decide
  · exact focus_time_monotone.2.2.2 ⟨600, true, some 0, some 0, []⟩ 29999 0
      rfl rfl (by decide) (by decide)
